import Mathlib

/-!
Shallow embedding of the core of the `awssdk-demo` bridge service:
the event model and decode logic of `src/event.rs`, the shard reader
loop of `src/kinesis.rs`, and the stream-description call used by
`src/main.rs`, together with theorems about the claims of the spec.

Byte payloads are modelled as `List Nat` (byte values), JSON values as
the inductive `Json`, and the serde-based decoding is translated from
the behaviour of the `#[serde(untagged)]` enum `Event` with
`#[serde(flatten)]` extra maps declared in `src/event.rs`.
-/

namespace AwsSdkDemo

/-- Numeric values as held by a `serde_json::Number`: an unsigned 64-bit
integer, a negative integer fitting `i64`, or a float (`f64`); the float
payload is abstracted away since no decode path inspects float values. -/
inductive JNum where
  | uint : Nat → JNum
  | nint : Int → JNum
  | float : JNum
deriving DecidableEq

/-- JSON values as modelled by `serde_json::Value`; objects keep their
fields as a list in source order (the buffered `Content` of the untagged
deserializer preserves entry order and duplicates). -/
inductive Json where
  | null : Json
  | bool : Bool → Json
  | num : JNum → Json
  | str : String → Json
  | arr : List Json → Json
  | obj : List (String × Json) → Json

/-- Numeric value of a hex digit character, if it is one. -/
def hexVal (c : Char) : Option Nat :=
  if '0' ≤ c ∧ c ≤ '9' then some (c.toNat - '0'.toNat)
  else if 'a' ≤ c ∧ c ≤ 'f' then some (c.toNat - 'a'.toNat + 10)
  else if 'A' ≤ c ∧ c ≤ 'F' then some (c.toNat - 'A'.toNat + 10)
  else none

/-- Fold a list of hex digit characters into a number; `none` if any
character is not a hex digit. -/
def hexChars : List Char → Nat → Option Nat
  | [], acc => some acc
  | c :: rest, acc =>
    match hexVal c with
    | some v => hexChars rest (acc * 16 + v)
    | none => none

/-- Hyphenated UUID text `xxxxxxxx-xxxx-xxxx-xxxx-xxxxxxxxxxxx` to its
128-bit value. -/
def parseUuidHyphenated (cs : List Char) : Option Nat :=
  if cs.length = 36 then
    match cs.splitAt 8 with
    | (g1, rest1) =>
      match rest1 with
      | '-' :: rest2 =>
        match rest2.splitAt 4 with
        | (g2, rest3) =>
          match rest3 with
          | '-' :: rest4 =>
            match rest4.splitAt 4 with
            | (g3, rest5) =>
              match rest5 with
              | '-' :: rest6 =>
                match rest6.splitAt 4 with
                | (g4, rest7) =>
                  match rest7 with
                  | '-' :: g5 =>
                    hexChars (g1 ++ g2 ++ g3 ++ g4 ++ g5) 0
                  | _ => none
              | _ => none
          | _ => none
      | _ => none
  else none

/-- UUID text in any of the forms accepted by `Uuid::parse_str` of the
`uuid` crate: simple (32 hex digits), hyphenated, braced hyphenated, or
URN-prefixed hyphenated. The UUID itself is modelled as its 128-bit
value. -/
def parseUuid (s : String) : Option Nat :=
  let cs := s.toList
  if cs.length = 32 then hexChars cs 0
  else if cs.length = 36 then parseUuidHyphenated cs
  else if cs.length = 38 then
    match cs with
    | c :: rest =>
      if c = Char.ofNat 123 then
        match rest.splitAt 36 with
        | (inner, tail) =>
          if tail = [Char.ofNat 125] then parseUuidHyphenated inner else none
      else none
    | _ => none
  else if cs.length = 45 then
    match cs.splitAt 9 with
    | (pre, rest) =>
      if pre = "urn:uuid:".toList then parseUuidHyphenated rest else none
  else none

/-- Ordered JSON object map as used for the `#[serde(flatten)]` extra
fields.

Modelled from the spec: the `serde_json::Map` ordering is decided by the
crate's `preserve_order` feature in the manifest, which is not among the
sources; the spec fixes an "ordered key→value map" collecting keys "in
their original order", so insertion keeps the position of an existing
key and otherwise appends. -/
def mapInsert (m : List (String × Json)) (k : String) (v : Json) :
    List (String × Json) :=
  if m.any (fun kv => kv.1 = k) then
    m.map (fun kv => if kv.1 = k then (k, v) else kv)
  else m ++ [(k, v)]

/-- Translation of `ProjectEvent` of `src/event.rs`; `project_id` holds
the 128-bit UUID value. -/
structure ProjectEvent where
  project_id : Nat
  entity_type : String
  entity_id : String
  event_data : List (String × Json)

/-- Translation of `AccountEvent` of `src/event.rs`. -/
structure AccountEvent where
  account_id : Nat
  event_data : List (String × Json)

/-- Translation of the untagged enum `Event` of `src/event.rs`. -/
inductive Event where
  | project : ProjectEvent → Event
  | account : AccountEvent → Event

/-- Field-by-field deserialization of `ProjectEvent` from a buffered
object, as generated by serde for a `PascalCase` struct with a flattened
trailing map: entries are visited in order, a known field seen twice or
with the wrong type is an error, unknown entries are collected into the
flatten map, and a missing known field at the end is an error. -/
def decodeProjectLoop :
    List (String × Json) → Option Nat → Option String → Option String →
    List (String × Json) → Option ProjectEvent
  | [], pid?, et?, eid?, extra =>
    match pid? with
    | none => none
    | some pid =>
      match et? with
      | none => none
      | some et =>
        match eid? with
        | none => none
        | some eid => some ⟨pid, et, eid, extra⟩
  | (k, v) :: rest, pid?, et?, eid?, extra =>
    if k = "ProjectId" then
      match pid? with
      | some _ => none
      | none =>
        match v with
        | .str s =>
          match parseUuid s with
          | some u => decodeProjectLoop rest (some u) et? eid? extra
          | none => none
        | _ => none
    else if k = "EntityType" then
      match et? with
      | some _ => none
      | none =>
        match v with
        | .str s => decodeProjectLoop rest pid? (some s) eid? extra
        | _ => none
    else if k = "EntityId" then
      match eid? with
      | some _ => none
      | none =>
        match v with
        | .str s => decodeProjectLoop rest pid? et? (some s) extra
        | _ => none
    else decodeProjectLoop rest pid? et? eid? (mapInsert extra k v)

/-- Deserialization of `ProjectEvent` from a JSON value: flatten structs
only accept object input. -/
def decodeProject (v : Json) : Option ProjectEvent :=
  match v with
  | .obj fields => decodeProjectLoop fields none none none []
  | _ => none

/-- Field-by-field deserialization of `AccountEvent` from a buffered
object; `AccountId` must be a non-negative integer fitting `u64`. -/
def decodeAccountLoop :
    List (String × Json) → Option Nat → List (String × Json) →
    Option AccountEvent
  | [], aid?, extra =>
    match aid? with
    | none => none
    | some aid => some ⟨aid, extra⟩
  | (k, v) :: rest, aid?, extra =>
    if k = "AccountId" then
      match aid? with
      | some _ => none
      | none =>
        match v with
        | .num (.uint n) =>
          if n < 2 ^ 64 then decodeAccountLoop rest (some n) extra else none
        | _ => none
    else decodeAccountLoop rest aid? (mapInsert extra k v)

/-- Deserialization of `AccountEvent` from a JSON value. -/
def decodeAccount (v : Json) : Option AccountEvent :=
  match v with
  | .obj fields => decodeAccountLoop fields none []
  | _ => none

/-- Deserialization of the untagged enum `Event` from a JSON value:
serde tries the variants in declaration order — `Project` first, then
`Account` — and reports a generic failure when no variant matches. -/
def decodeValue (v : Json) : Option Event :=
  match decodeProject v with
  | some p => some (.project p)
  | none =>
    match decodeAccount v with
    | some a => some (.account a)
    | none => none

/-- JSON whitespace skipping (space, tab, line feed, carriage return). -/
def skipWs : List Nat → List Nat
  | b :: rest =>
    if b = 32 ∨ b = 9 ∨ b = 10 ∨ b = 13 then skipWs rest else b :: rest
  | [] => []

/-- Hex digit value of a byte. -/
def hexByte (b : Nat) : Option Nat :=
  if 48 ≤ b ∧ b ≤ 57 then some (b - 48)
  else if 97 ≤ b ∧ b ≤ 102 then some (b - 87)
  else if 65 ≤ b ∧ b ≤ 70 then some (b - 55)
  else none

/-- Whether a byte is a UTF-8 continuation byte. -/
def isCont (b : Nat) : Bool := 128 ≤ b && b ≤ 191

/-- Body of a JSON string literal, after the opening quote: plain bytes,
escape sequences (including surrogate pairs), and strict UTF-8
validation, as in the string parser behind `serde_json::from_slice`.
Returns the decoded string and the bytes after the closing quote. -/
def parseStringLoop : List Nat → List Char → Except Unit (String × List Nat)
  | [], _ => .error ()
  | b :: rest, acc =>
    if b = 34 then .ok (String.mk acc.reverse, rest)
    else if b = 92 then
      match rest with
      | 34 :: r => parseStringLoop r (Char.ofNat 34 :: acc)
      | 92 :: r => parseStringLoop r (Char.ofNat 92 :: acc)
      | 47 :: r => parseStringLoop r (Char.ofNat 47 :: acc)
      | 98 :: r => parseStringLoop r (Char.ofNat 8 :: acc)
      | 102 :: r => parseStringLoop r (Char.ofNat 12 :: acc)
      | 110 :: r => parseStringLoop r (Char.ofNat 10 :: acc)
      | 114 :: r => parseStringLoop r (Char.ofNat 13 :: acc)
      | 116 :: r => parseStringLoop r (Char.ofNat 9 :: acc)
      | 117 :: h1 :: h2 :: h3 :: h4 :: r =>
        match hexByte h1, hexByte h2, hexByte h3, hexByte h4 with
        | some a, some b1, some c, some d =>
          let cp := ((a * 16 + b1) * 16 + c) * 16 + d
          if cp < 55296 ∨ 57343 < cp then
            parseStringLoop r (Char.ofNat cp :: acc)
          else if cp ≤ 56319 then
            match r with
            | 92 :: 117 :: g1 :: g2 :: g3 :: g4 :: r2 =>
              match hexByte g1, hexByte g2, hexByte g3, hexByte g4 with
              | some e1, some e2, some e3, some e4 =>
                let cp2 := ((e1 * 16 + e2) * 16 + e3) * 16 + e4
                if 56320 ≤ cp2 ∧ cp2 ≤ 57343 then
                  parseStringLoop r2
                    (Char.ofNat (65536 + (cp - 55296) * 1024 + (cp2 - 56320)) :: acc)
                else .error ()
              | _, _, _, _ => .error ()
            | _ => .error ()
          else .error ()
        | _, _, _, _ => .error ()
      | _ => .error ()
    else if b < 32 then .error ()
    else if b < 128 then parseStringLoop rest (Char.ofNat b :: acc)
    else if 194 ≤ b ∧ b ≤ 223 then
      match rest with
      | b1 :: r =>
        if isCont b1 then
          parseStringLoop r (Char.ofNat ((b - 192) * 64 + (b1 - 128)) :: acc)
        else .error ()
      | _ => .error ()
    else if 224 ≤ b ∧ b ≤ 239 then
      match rest with
      | b1 :: b2 :: r =>
        let lo1 := if b = 224 then 160 else 128
        let hi1 := if b = 237 then 159 else 191
        if (lo1 ≤ b1 ∧ b1 ≤ hi1) ∧ isCont b2 then
          parseStringLoop r
            (Char.ofNat ((b - 224) * 4096 + (b1 - 128) * 64 + (b2 - 128)) :: acc)
        else .error ()
      | _ => .error ()
    else if 240 ≤ b ∧ b ≤ 244 then
      match rest with
      | b1 :: b2 :: b3 :: r =>
        let lo1 := if b = 240 then 144 else 128
        let hi1 := if b = 244 then 143 else 191
        if (lo1 ≤ b1 ∧ b1 ≤ hi1) ∧ isCont b2 ∧ isCont b3 then
          parseStringLoop r
            (Char.ofNat
              ((b - 240) * 262144 + (b1 - 128) * 4096 + (b2 - 128) * 64 + (b3 - 128))
              :: acc)
        else .error ()
      | _ => .error ()
    else .error ()

/-- Maximal prefix of ASCII digit bytes. -/
def takeDigits : List Nat → List Nat × List Nat
  | [] => ([], [])
  | b :: rest =>
    if 48 ≤ b ∧ b ≤ 57 then
      match takeDigits rest with
      | (ds, r) => (b :: ds, r)
    else ([], b :: rest)

/-- Digit bytes folded into a number. -/
def digitsToNat : List Nat → Nat → Nat
  | [], acc => acc
  | d :: rest, acc => digitsToNat rest (acc * 10 + (d - 48))

/-- Optional fraction part of a JSON number; reports whether one was
present. -/
def parseFrac : List Nat → Except Unit (Bool × List Nat)
  | 46 :: rest =>
    match takeDigits rest with
    | ([], _) => .error ()
    | (_ :: _, r) => .ok (true, r)
  | bytes => .ok (false, bytes)

/-- Optional exponent part of a JSON number; reports whether one was
present. -/
def parseExpPart : List Nat → Except Unit (Bool × List Nat)
  | 101 :: rest | 69 :: rest =>
    match rest with
    | 43 :: r | 45 :: r =>
      (match takeDigits r with
       | ([], _) => .error ()
       | (_ :: _, r2) => .ok (true, r2))
    | r =>
      match takeDigits r with
      | ([], _) => .error ()
      | (_ :: _, r2) => .ok (true, r2)
  | bytes => .ok (false, bytes)

/-- JSON number, the sign already consumed. Mirrors `serde_json`:
a non-negative integer literal fitting `u64` becomes `uint`, a negative
one fitting `i64` becomes `nint`, and any literal with a fraction or
exponent part, an out-of-range integer, or the literal `-0`, falls back
to `f64`. -/
def parseNumber (neg : Bool) (bytes : List Nat) : Except Unit (JNum × List Nat) :=
  match bytes with
  | [] => .error ()
  | b :: rest =>
    if 48 ≤ b ∧ b ≤ 57 then
      match (if b = 48 then ((0 : Nat), rest)
             else match takeDigits rest with
                  | (ds, r) => (digitsToNat ds (b - 48), r)) with
      | (ip, r1) =>
        match parseFrac r1 with
        | .error e => .error e
        | .ok (hasFrac, r2) =>
          match parseExpPart r2 with
          | .error e => .error e
          | .ok (hasExp, r3) =>
            let n : JNum :=
              if hasFrac ∨ hasExp then .float
              else if neg then
                if ip = 0 then .float
                else if ip ≤ 2 ^ 63 then .nint (-(ip : Int))
                else .float
              else
                if ip < 2 ^ 64 then .uint ip else .float
            .ok (n, r3)
    else .error ()

mutual

/-- Recursive-descent JSON value parser with fuel, over raw bytes,
following the grammar accepted by `serde_json::from_slice`. -/
def parseValue : Nat → List Nat → Except Unit (Json × List Nat)
  | 0, _ => .error ()
  | fuel + 1, bytes =>
    match skipWs bytes with
    | [] => .error ()
    | b :: rest =>
      if b = 110 then
        match rest with
        | 117 :: 108 :: 108 :: r => .ok (.null, r)
        | _ => .error ()
      else if b = 116 then
        match rest with
        | 114 :: 117 :: 101 :: r => .ok (.bool true, r)
        | _ => .error ()
      else if b = 102 then
        match rest with
        | 97 :: 108 :: 115 :: 101 :: r => .ok (.bool false, r)
        | _ => .error ()
      else if b = 34 then
        match parseStringLoop rest [] with
        | .ok (s, r) => .ok (.str s, r)
        | .error e => .error e
      else if b = 45 then
        match parseNumber true rest with
        | .ok (n, r) => .ok (.num n, r)
        | .error e => .error e
      else if 48 ≤ b ∧ b ≤ 57 then
        match parseNumber false (b :: rest) with
        | .ok (n, r) => .ok (.num n, r)
        | .error e => .error e
      else if b = 91 then
        match skipWs rest with
        | 93 :: r => .ok (.arr [], r)
        | other => parseArrayItems fuel other []
      else if b = 123 then
        match skipWs rest with
        | 125 :: r => .ok (.obj [], r)
        | other => parseObjectItems fuel other []
      else .error ()

/-- Comma-separated array elements up to the closing bracket. -/
def parseArrayItems : Nat → List Nat → List Json → Except Unit (Json × List Nat)
  | 0, _, _ => .error ()
  | fuel + 1, bytes, acc =>
    match parseValue fuel bytes with
    | .error e => .error e
    | .ok (v, r) =>
      match skipWs r with
      | 44 :: r2 => parseArrayItems fuel r2 (v :: acc)
      | 93 :: r2 => .ok (.arr (v :: acc).reverse, r2)
      | _ => .error ()

/-- Comma-separated object entries up to the closing brace; duplicate
keys are kept in source order, as in the buffered content the untagged
deserializer works on. -/
def parseObjectItems :
    Nat → List Nat → List (String × Json) → Except Unit (Json × List Nat)
  | 0, _, _ => .error ()
  | fuel + 1, bytes, acc =>
    match skipWs bytes with
    | 34 :: rest =>
      match parseStringLoop rest [] with
      | .error e => .error e
      | .ok (k, r) =>
        match skipWs r with
        | 58 :: r2 =>
          match parseValue fuel r2 with
          | .error e => .error e
          | .ok (v, r3) =>
            match skipWs r3 with
            | 44 :: r4 => parseObjectItems fuel r4 ((k, v) :: acc)
            | 125 :: r4 => .ok (.obj ((k, v) :: acc).reverse, r4)
            | _ => .error ()
        | _ => .error ()
    | _ => .error ()

end

/-- Translation of `serde_json::from_slice` down to the generic value:
parse one JSON value and require only trailing whitespace after it. The
fuel bound exceeds the greatest possible nesting and item count. -/
def parseJson (bytes : List Nat) : Except Unit Json :=
  match parseValue (bytes.length + 2) bytes with
  | .error e => .error e
  | .ok (v, rest) =>
    match skipWs rest with
    | [] => .ok v
    | _ => .error ()

/-- Translation of `EventDeserializeError` of `src/event.rs`: the single
wrapper around `serde_json::Error`, whose two reachable shapes here are
a parse (syntax or end-of-file category) error from the byte input, or
the one generic data error the untagged enum reports when no variant
matched. -/
inductive EventDeserializeError where
  | malformedJson : EventDeserializeError
  | noVariantMatched : EventDeserializeError
deriving DecidableEq

/-- Translation of `Event::try_from(&Blob)` of `src/event.rs`:
`serde_json::from_slice` on the raw bytes, with the untagged-enum
variant selection of `decodeValue`. -/
def Event.tryFrom (blob : List Nat) : Except EventDeserializeError Event :=
  match parseJson blob with
  | .error _ => .error .malformedJson
  | .ok v =>
    match decodeValue v with
    | some e => .ok e
    | none => .error .noVariantMatched

/-- Translation of the fields of an SDK `Record` used by the shard
reader of `src/kinesis.rs`; both are optional in the SDK model. -/
structure Record where
  sequenceNumber : Option String
  data : Option (List Nat)

/-- Translation of the fields of `GetRecordsOutput` used by the reader:
an optional record list and an optional next shard iterator. -/
structure GetRecordsOutput where
  records : Option (List Record)
  nextShardIterator : Option String

/-- Cause attached to a fatal error of `run_until_shard_closed`: the
wrapped initial `GetShardIterator` failure, a propagated `GetRecords`
failure, or the wrapped channel send failure. -/
inductive FailReason where
  | initialCursor : String → FailReason
  | fetchCall : String → FailReason
  | channelSend : FailReason
deriving DecidableEq

/-- How a run of the reader ends: `Ok(())`, `Err(..)`, or a panic from
an `unwrap` on a missing optional field. -/
inductive Outcome where
  | ok : Outcome
  | err : FailReason → Outcome
  | panicked : Outcome
deriving DecidableEq

/-- Observable result of a reader run: its outcome, the events sent over
the channel in order, the number of `GetRecords` calls, the number of
pacing sleeps taken, and the raw payloads logged for malformed
records. -/
structure RunResult where
  outcome : Outcome
  published : List Event
  fetchCalls : Nat
  delays : Nat
  loggedPayloads : List (List Nat)

/-- Scripted environment for one reader: the `GetShardIterator` result,
the successive `GetRecords` results, and whether the channel consumer is
still alive (an `UnboundedSender::send` fails exactly when the receiver
is gone). -/
structure ShardEnv where
  initialIterator : Except String String
  script : List (Except String GetRecordsOutput)
  channelOpen : Bool

/-- Result of handling the records of one batch. -/
inductive BatchResult where
  | done : List Event → List (List Nat) → BatchResult
  | sendFailed : List Event → List (List Nat) → BatchResult
  | panicked : List Event → List (List Nat) → BatchResult

/-- Translation of the per-record part of the reader loop: for each
record, `handle_record` decodes `record.data().unwrap()` — panicking
when the data is absent — publishes a decoded event over the channel
(propagating a send failure), and logs the raw payload of a record that
fails to decode before moving on. -/
def handleRecords (channelOpen : Bool) : List Record → BatchResult
  | [] => .done [] []
  | r :: rest =>
    match r.data with
    | none => .panicked [] []
    | some d =>
      match Event.tryFrom d with
      | .ok ev =>
        if channelOpen then
          match handleRecords channelOpen rest with
          | .done pub log => .done (ev :: pub) log
          | .sendFailed pub log => .sendFailed (ev :: pub) log
          | .panicked pub log => .panicked (ev :: pub) log
        else .sendFailed [] []
      | .error _ =>
        match handleRecords channelOpen rest with
        | .done pub log => .done pub (d :: log)
        | .sendFailed pub log => .sendFailed pub (d :: log)
        | .panicked pub log => .panicked pub (d :: log)

/-- Intermediate counters of a reader run. -/
structure RunAcc where
  published : List Event
  fetchCalls : Nat
  delays : Nat
  loggedPayloads : List (List Nat)

/-- Final result from the accumulated counters and an outcome. -/
def RunAcc.finish (acc : RunAcc) (o : Outcome) : RunResult :=
  ⟨o, acc.published, acc.fetchCalls, acc.delays, acc.loggedPayloads⟩

/-- Translation of the `loop` of `run_until_shard_closed`: call
`GetRecords` (consuming the next scripted response; `none` when the
script is exhausted before the loop ends), propagate a service error,
iterate `resp.records().unwrap()` — panicking when the record list is
absent — through the record handler, then either take the 200 ms pacing
sleep and continue with the next iterator, or break successfully when
the response carries none. -/
def runLoop (channelOpen : Bool) :
    List (Except String GetRecordsOutput) → RunAcc → Option RunResult
  | [], _ => none
  | .error e :: _, acc =>
    some (RunAcc.finish ⟨acc.published, acc.fetchCalls + 1, acc.delays,
      acc.loggedPayloads⟩ (.err (.fetchCall e)))
  | .ok resp :: rest, acc =>
    let acc1 : RunAcc :=
      ⟨acc.published, acc.fetchCalls + 1, acc.delays, acc.loggedPayloads⟩
    match resp.records with
    | none => some (acc1.finish .panicked)
    | some recs =>
      match handleRecords channelOpen recs with
      | .panicked pub log =>
        some (RunAcc.finish ⟨acc1.published ++ pub, acc1.fetchCalls, acc1.delays,
          acc1.loggedPayloads ++ log⟩ .panicked)
      | .sendFailed pub log =>
        some (RunAcc.finish ⟨acc1.published ++ pub, acc1.fetchCalls, acc1.delays,
          acc1.loggedPayloads ++ log⟩ (.err .channelSend))
      | .done pub log =>
        let acc2 : RunAcc :=
          ⟨acc1.published ++ pub, acc1.fetchCalls, acc1.delays,
            acc1.loggedPayloads ++ log⟩
        match resp.nextShardIterator with
        | some _ =>
          runLoop channelOpen rest
            ⟨acc2.published, acc2.fetchCalls, acc2.delays + 1, acc2.loggedPayloads⟩
        | none => some (acc2.finish .ok)

/-- Translation of `KinesisShardReader::run_until_shard_closed` of
`src/kinesis.rs`: obtain the initial shard iterator, failing fatally
(wrapped, no retry) on error, then run the fetch loop. -/
def KinesisShardReader.runUntilShardClosed (env : ShardEnv) : Option RunResult :=
  match env.initialIterator with
  | .error e => some ⟨.err (.initialCursor e), [], 0, 0, []⟩
  | .ok _ => runLoop env.channelOpen env.script ⟨[], 0, 0, []⟩

/-- Shard entry of a stream description; the shard id is optional in the
SDK model. -/
structure Shard where
  shardId : Option String

/-- Translation of the `StreamDescription` fields used here: the
optional shard list. -/
structure StreamDescription where
  shards : Option (List Shard)

/-- Translation of the `DescribeStreamOutput` fields used here: the
optional stream description. -/
structure DescribeStreamOutput where
  streamDescription : Option StreamDescription

/-- Translation of `KinesisWrapper::describe_stream` of
`src/kinesis.rs`, over the result of the service call: a call error is
wrapped and propagated, a response without a stream description becomes
the error "No stream description", and otherwise the description is
returned as-is — its shard list is not inspected. -/
def KinesisWrapper.describeStream (resp : Except String DescribeStreamOutput) :
    Except String StreamDescription :=
  match resp with
  | .error e => .error e
  | .ok o =>
    match o.streamDescription with
    | none => .error "No stream description"
    | some d => .ok d

/-- Outcome of an expression that may panic. -/
inductive PanicOr (α : Type) where
  | panicked : String → PanicOr α
  | value : α → PanicOr α

/-- Translation of the shard selection of `src/main.rs`:
`stream.shards().expect("at least one shard")[0].shard_id().expect("shard id")`
— panics when the shard list is absent, when it is empty, or when the
first shard has no id. -/
def mainFirstShardId (d : StreamDescription) : PanicOr String :=
  match d.shards with
  | none => .panicked "at least one shard"
  | some [] => .panicked "index out of bounds"
  | some (s :: _) =>
    match s.shardId with
    | none => .panicked "shard id"
    | some id => .value id

/-- Keys of a buffered object, in source order. -/
def keysOf (fields : List (String × Json)) : List String := fields.map Prod.fst

/-- Value of the first entry with the given key, if any. -/
def fieldVal (fields : List (String × Json)) (k : String) : Option Json :=
  (fields.find? (fun kv => kv.1 = k)).map Prod.snd

/-- Keys hoisted into named fields by the `ProjectEvent` schema. -/
def projectConsumed (k : String) : Bool :=
  k = "ProjectId" || k = "EntityType" || k = "EntityId"

/-- Outcome for one named UUID field of a flatten struct: present state
plus entry occurrence resolve to the final value, a duplicate, a wrong
type, a bad UUID, or a missing field. -/
def resolveUuid (st : Option Nat) (occ : Option Json) : Option Nat :=
  match st with
  | some x =>
    match occ with
    | none => some x
    | some _ => none
  | none =>
    match occ with
    | some (.str s) => parseUuid s
    | some _ => none
    | none => none

/-- Outcome for one named string field of a flatten struct. -/
def resolveStr (st : Option String) (occ : Option Json) : Option String :=
  match st with
  | some x =>
    match occ with
    | none => some x
    | some _ => none
  | none =>
    match occ with
    | some (.str s) => some s
    | some _ => none
    | none => none

/-- Outcome for one named `u64` field of a flatten struct. -/
def resolveU64 (st : Option Nat) (occ : Option Json) : Option Nat :=
  match st with
  | some x =>
    match occ with
    | none => some x
    | some _ => none
  | none =>
    match occ with
    | some (.num (.uint n)) => if n < 2 ^ 64 then some n else none
    | some _ => none
    | none => none

/-- Closed form of the `ProjectEvent` field loop on an object whose keys
are distinct from each other and from the already-collected extras. -/
def projectResult (fields : List (String × Json)) (pid? : Option Nat)
    (et? eid? : Option String) (extra : List (String × Json)) :
    Option ProjectEvent :=
  match resolveUuid pid? (fieldVal fields "ProjectId") with
  | none => none
  | some u =>
    match resolveStr et? (fieldVal fields "EntityType") with
    | none => none
    | some t =>
      match resolveStr eid? (fieldVal fields "EntityId") with
      | none => none
      | some i =>
        some ⟨u, t, i, extra ++ fields.filter (fun kv => !projectConsumed kv.1)⟩

/-- Closed form of the `AccountEvent` field loop. -/
def accountResult (fields : List (String × Json)) (aid? : Option Nat)
    (extra : List (String × Json)) : Option AccountEvent :=
  match resolveU64 aid? (fieldVal fields "AccountId") with
  | none => none
  | some a => some ⟨a, extra ++ fields.filter (fun kv => !(kv.1 = "AccountId"))⟩

/-- Bytes of the payload text with key ProjectId mapped to the number 5
and key AccountId mapped to the number 7. -/
def payloadPidNumAid : List Nat :=
  [123, 34, 80, 114, 111, 106, 101, 99, 116, 73, 100, 34, 58, 53, 44,
   34, 65, 99, 99, 111, 117, 110, 116, 73, 100, 34, 58, 55, 125]

/-- Bytes of the payload text with a valid hyphenated ProjectId UUID,
EntityType "a", EntityId "b", and an additional AccountId key mapped to
the number 7. -/
def payloadFullProjectWithAid : List Nat :=
  [123, 34, 80, 114, 111, 106, 101, 99, 116, 73, 100, 34, 58, 34, 49, 50,
   51, 101, 52, 53, 54, 55, 45, 101, 56, 57, 98, 45, 49, 50, 100, 51, 45,
   97, 52, 53, 54, 45, 52, 50, 54, 54, 49, 52, 49, 55, 52, 48, 48, 48, 34,
   44, 34, 69, 110, 116, 105, 116, 121, 84, 121, 112, 101, 34, 58, 34, 97,
   34, 44, 34, 69, 110, 116, 105, 116, 121, 73, 100, 34, 58, 34, 98, 34,
   44, 34, 65, 99, 99, 111, 117, 110, 116, 73, 100, 34, 58, 55, 125]

/-- Value of the UUID 123e4567-e89b-12d3-a456-426614174000. -/
def sampleUuidVal : Nat := 24249434048109030647017182301789831168

/-- Bytes of the payload text with only key AccountId mapped to 1. -/
def payloadAid1 : List Nat :=
  [123, 34, 65, 99, 99, 111, 117, 110, 116, 73, 100, 34, 58, 49, 125]

/-- Bytes of the payload text with key AccountId mapped to 2 and an
extra key K mapped to true. -/
def payloadAid2K : List Nat :=
  [123, 34, 65, 99, 99, 111, 117, 110, 116, 73, 100, 34, 58, 50, 44, 34,
   75, 34, 58, 116, 114, 117, 101, 125]

/-- Bytes of the empty-object payload text. -/
def payloadEmptyObj : List Nat := [123, 125]

/-- Bytes of the payload text with key ProjectId mapped to the
number 0 and no other key. -/
def payloadPidNumOnly : List Nat :=
  [123, 34, 80, 114, 111, 106, 101, 99, 116, 73, 100, 34, 58, 48, 125]

/-- Bytes of a truncated payload: a lone opening brace. -/
def payloadTruncated : List Nat := [123]

/-- Every record of a batch carries a data payload. -/
def recordsWf (recs : List Record) : Bool := recs.all (fun r => r.data.isSome)

/-- Scripted responses that drive the loop to its normal end: each
consumed response is a service success carrying a record list whose
records all have payloads, and the loop reaches a response without a
next iterator. Responses after that one are never consumed and are
unconstrained. -/
def goodScript : List (Except String GetRecordsOutput) → Bool
  | [] => false
  | .error _ :: _ => false
  | .ok resp :: rest =>
    match resp.records with
    | none => false
    | some recs =>
      recordsWf recs &&
      (match resp.nextShardIterator with
       | none => true
       | some _ => goodScript rest)

/-- Response the loop passes through: a service success with a wellformed
record list and a next iterator. -/
def openOkEntry : Except String GetRecordsOutput → Bool
  | .error _ => false
  | .ok resp =>
    (match resp.records with
     | none => false
     | some recs => recordsWf recs) && resp.nextShardIterator.isSome

/-- Response that never trips an `unwrap`: any service error, or a
service success with a record list whose records all have payloads. -/
def entryWf : Except String GetRecordsOutput → Bool
  | .error _ => true
  | .ok resp =>
    match resp.records with
    | none => false
    | some recs => recordsWf recs

/-- Script meeting the totality precondition of the reader. -/
def scriptWf (s : List (Except String GetRecordsOutput)) : Bool :=
  s.all entryWf

/-! Support lemmas about the decode loops. -/

theorem keysOf_cons (k : String) (v : Json) (rest : List (String × Json)) :
    keysOf ((k, v) :: rest) = k :: keysOf rest := rfl

theorem mem_keysOf_of_mem {fields : List (String × Json)} {kv : String × Json}
    (h : kv ∈ fields) : kv.1 ∈ keysOf fields := by
  simp only [keysOf, List.mem_map]
  exact ⟨kv, h, rfl⟩

theorem mapInsert_of_not_mem {m : List (String × Json)} {k : String} (v : Json)
    (h : k ∉ keysOf m) : mapInsert m k v = m ++ [(k, v)] := by
  have hany : m.any (fun kv => kv.1 = k) = false := by
    rw [List.any_eq_false]
    intro kv hkv
    simp only [decide_eq_true_eq]
    intro hEq
    exact h (hEq ▸ mem_keysOf_of_mem hkv)
  simp [mapInsert, hany]

theorem fieldVal_of_not_mem {fields : List (String × Json)} {k : String}
    (h : k ∉ keysOf fields) : fieldVal fields k = none := by
  have : fields.find? (fun kv => kv.1 = k) = none := by
    rw [List.find?_eq_none]
    intro kv hkv
    simp only [decide_eq_true_eq]
    intro hEq
    exact h (hEq ▸ mem_keysOf_of_mem hkv)
  simp [fieldVal, this]

theorem fieldVal_cons_self (k : String) (v : Json) (rest : List (String × Json)) :
    fieldVal ((k, v) :: rest) k = some v := by
  simp [fieldVal, List.find?_cons_of_pos]

theorem fieldVal_cons_ne {k k' : String} (v : Json) (rest : List (String × Json))
    (h : ¬k = k') : fieldVal ((k, v) :: rest) k' = fieldVal rest k' := by
  rw [fieldVal, List.find?_cons_of_neg, fieldVal]
  simp [h]

theorem projectResult_none_fst {fields : List (String × Json)} {pid? : Option Nat}
    {et? eid? : Option String} {extra : List (String × Json)}
    (h : resolveUuid pid? (fieldVal fields "ProjectId") = none) :
    projectResult fields pid? et? eid? extra = none := by
  simp [projectResult, h]

theorem projectResult_none_snd {fields : List (String × Json)} {pid? : Option Nat}
    {et? eid? : Option String} {extra : List (String × Json)}
    (h : resolveStr et? (fieldVal fields "EntityType") = none) :
    projectResult fields pid? et? eid? extra = none := by
  unfold projectResult
  rw [h]
  cases resolveUuid pid? (fieldVal fields "ProjectId") <;> simp

theorem projectResult_none_thd {fields : List (String × Json)} {pid? : Option Nat}
    {et? eid? : Option String} {extra : List (String × Json)}
    (h : resolveStr eid? (fieldVal fields "EntityId") = none) :
    projectResult fields pid? et? eid? extra = none := by
  unfold projectResult
  rw [h]
  cases resolveUuid pid? (fieldVal fields "ProjectId") <;>
    cases resolveStr et? (fieldVal fields "EntityType") <;> simp

theorem decodeProjectLoop_eq (fields : List (String × Json)) (pid? : Option Nat)
    (et? eid? : Option String) (extra : List (String × Json))
    (hnd : (keysOf fields).Nodup)
    (hdisj : ∀ k, k ∈ keysOf extra → k ∉ keysOf fields) :
    decodeProjectLoop fields pid? et? eid? extra =
      projectResult fields pid? et? eid? extra := by
  induction fields generalizing pid? et? eid? extra with
  | nil =>
    cases pid? <;> cases et? <;> cases eid? <;>
      simp [decodeProjectLoop, projectResult, fieldVal, resolveUuid, resolveStr]
  | cons kv rest ih =>
    obtain ⟨k, v⟩ := kv
    rw [keysOf_cons, List.nodup_cons] at hnd
    obtain ⟨hknot, hnd'⟩ := hnd
    have hdisj' : ∀ k', k' ∈ keysOf extra → k' ∉ keysOf rest := by
      intro k' hk' hmem
      exact hdisj k' hk' (by rw [keysOf_cons]; exact List.mem_cons_of_mem _ hmem)
    by_cases h1 : k = "ProjectId"
    · subst h1
      have hv1' : fieldVal rest "ProjectId" = none := fieldVal_of_not_mem hknot
      cases pid? with
      | some x =>
        rw [projectResult_none_fst (by rw [fieldVal_cons_self]; rfl)]
        simp [decodeProjectLoop]
      | none =>
        cases v with
        | str s =>
          cases hu : parseUuid s with
          | some u =>
            rw [show decodeProjectLoop (("ProjectId", Json.str s) :: rest)
                  none et? eid? extra
                = decodeProjectLoop rest (some u) et? eid? extra from by
                  simp [decodeProjectLoop, hu]]
            rw [ih (some u) et? eid? extra hnd' hdisj']
            unfold projectResult
            rw [fieldVal_cons_self, hv1',
              fieldVal_cons_ne _ _ (show ¬"ProjectId" = "EntityType" by decide),
              fieldVal_cons_ne _ _ (show ¬"ProjectId" = "EntityId" by decide),
              show resolveUuid none (some (Json.str s)) = parseUuid s from rfl,
              show resolveUuid (some u) none = some u from rfl, hu]
            cases resolveStr et? (fieldVal rest "EntityType") <;>
              cases resolveStr eid? (fieldVal rest "EntityId") <;>
                simp [List.filter_cons, projectConsumed]
          | none =>
            rw [projectResult_none_fst
              (by rw [fieldVal_cons_self,
                    show resolveUuid none (some (Json.str s)) = parseUuid s from rfl,
                    hu])]
            simp [decodeProjectLoop, hu]
        | null =>
          rw [projectResult_none_fst (by rw [fieldVal_cons_self]; rfl)]
          simp [decodeProjectLoop]
        | bool b =>
          rw [projectResult_none_fst (by rw [fieldVal_cons_self]; rfl)]
          simp [decodeProjectLoop]
        | num n =>
          rw [projectResult_none_fst (by rw [fieldVal_cons_self]; rfl)]
          simp [decodeProjectLoop]
        | arr xs =>
          rw [projectResult_none_fst (by rw [fieldVal_cons_self]; rfl)]
          simp [decodeProjectLoop]
        | obj fs =>
          rw [projectResult_none_fst (by rw [fieldVal_cons_self]; rfl)]
          simp [decodeProjectLoop]
    · by_cases h2 : k = "EntityType"
      · subst h2
        have hv2' : fieldVal rest "EntityType" = none := fieldVal_of_not_mem hknot
        have e1 : fieldVal (("EntityType", v) :: rest) "ProjectId" =
            fieldVal rest "ProjectId" :=
          fieldVal_cons_ne _ _ (by decide)
        have e3 : fieldVal (("EntityType", v) :: rest) "EntityId" =
            fieldVal rest "EntityId" :=
          fieldVal_cons_ne _ _ (by decide)
        cases et? with
        | some x =>
          rw [projectResult_none_snd (by rw [fieldVal_cons_self]; rfl)]
          simp [decodeProjectLoop, h1]
        | none =>
          cases v with
          | str s =>
            rw [show decodeProjectLoop (("EntityType", Json.str s) :: rest)
                  pid? none eid? extra
                = decodeProjectLoop rest pid? (some s) eid? extra from by
                  simp [decodeProjectLoop, h1]]
            rw [ih pid? (some s) eid? extra hnd' hdisj']
            unfold projectResult
            rw [fieldVal_cons_self, hv2', e1, e3,
              show resolveStr none (some (Json.str s)) = some s from rfl,
              show resolveStr (some s) none = some s from rfl]
            cases resolveUuid pid? (fieldVal rest "ProjectId") <;>
              cases resolveStr eid? (fieldVal rest "EntityId") <;>
                simp [List.filter_cons, projectConsumed]
          | null =>
            rw [projectResult_none_snd (by rw [fieldVal_cons_self]; rfl)]
            simp [decodeProjectLoop, h1]
          | bool b =>
            rw [projectResult_none_snd (by rw [fieldVal_cons_self]; rfl)]
            simp [decodeProjectLoop, h1]
          | num n =>
            rw [projectResult_none_snd (by rw [fieldVal_cons_self]; rfl)]
            simp [decodeProjectLoop, h1]
          | arr xs =>
            rw [projectResult_none_snd (by rw [fieldVal_cons_self]; rfl)]
            simp [decodeProjectLoop, h1]
          | obj fs =>
            rw [projectResult_none_snd (by rw [fieldVal_cons_self]; rfl)]
            simp [decodeProjectLoop, h1]
      · by_cases h3 : k = "EntityId"
        · subst h3
          have hv3' : fieldVal rest "EntityId" = none := fieldVal_of_not_mem hknot
          have e1 : fieldVal (("EntityId", v) :: rest) "ProjectId" =
              fieldVal rest "ProjectId" :=
            fieldVal_cons_ne _ _ (by decide)
          have e2 : fieldVal (("EntityId", v) :: rest) "EntityType" =
              fieldVal rest "EntityType" :=
            fieldVal_cons_ne _ _ (by decide)
          cases eid? with
          | some x =>
            rw [projectResult_none_thd (by rw [fieldVal_cons_self]; rfl)]
            simp [decodeProjectLoop, h1, h2]
          | none =>
            cases v with
            | str s =>
              rw [show decodeProjectLoop (("EntityId", Json.str s) :: rest)
                    pid? et? none extra
                  = decodeProjectLoop rest pid? et? (some s) extra from by
                    simp [decodeProjectLoop, h1, h2]]
              rw [ih pid? et? (some s) extra hnd' hdisj']
              unfold projectResult
              rw [fieldVal_cons_self, hv3', e1, e2,
                show resolveStr none (some (Json.str s)) = some s from rfl,
                show resolveStr (some s) none = some s from rfl]
              cases resolveUuid pid? (fieldVal rest "ProjectId") <;>
                cases resolveStr et? (fieldVal rest "EntityType") <;>
                  simp [List.filter_cons, projectConsumed]
            | null =>
              rw [projectResult_none_thd (by rw [fieldVal_cons_self]; rfl)]
              simp [decodeProjectLoop, h1, h2]
            | bool b =>
              rw [projectResult_none_thd (by rw [fieldVal_cons_self]; rfl)]
              simp [decodeProjectLoop, h1, h2]
            | num n =>
              rw [projectResult_none_thd (by rw [fieldVal_cons_self]; rfl)]
              simp [decodeProjectLoop, h1, h2]
            | arr xs =>
              rw [projectResult_none_thd (by rw [fieldVal_cons_self]; rfl)]
              simp [decodeProjectLoop, h1, h2]
            | obj fs =>
              rw [projectResult_none_thd (by rw [fieldVal_cons_self]; rfl)]
              simp [decodeProjectLoop, h1, h2]
        · -- an extra key, collected into the flatten map
          have hkextra : k ∉ keysOf extra := by
            intro hmem
            exact hdisj k hmem (by rw [keysOf_cons]; exact List.mem_cons_self _ _)
          have step : decodeProjectLoop ((k, v) :: rest) pid? et? eid? extra
              = decodeProjectLoop rest pid? et? eid? (extra ++ [(k, v)]) := by
            simp only [decodeProjectLoop, if_neg h1, if_neg h2, if_neg h3]
            rw [mapInsert_of_not_mem _ hkextra]
          rw [step]
          have hdisj2 : ∀ k', k' ∈ keysOf (extra ++ [(k, v)]) → k' ∉ keysOf rest := by
            intro k' hk'
            have : keysOf (extra ++ [(k, v)]) = keysOf extra ++ [k] := by
              simp [keysOf]
            rw [this] at hk'
            rcases List.mem_append.mp hk' with h | h
            · exact hdisj' k' h
            · simp at h
              exact h ▸ hknot
          rw [ih pid? et? eid? (extra ++ [(k, v)]) hnd' hdisj2]
          have e1 : fieldVal ((k, v) :: rest) "ProjectId" =
              fieldVal rest "ProjectId" := fieldVal_cons_ne _ _ h1
          have e2 : fieldVal ((k, v) :: rest) "EntityType" =
              fieldVal rest "EntityType" := fieldVal_cons_ne _ _ h2
          have e3 : fieldVal ((k, v) :: rest) "EntityId" =
              fieldVal rest "EntityId" := fieldVal_cons_ne _ _ h3
          have hnc : projectConsumed k = false := by
            simp [projectConsumed, h1, h2, h3]
          unfold projectResult
          rw [e1, e2, e3]
          cases resolveUuid pid? (fieldVal rest "ProjectId") <;>
            cases resolveStr et? (fieldVal rest "EntityType") <;>
              cases resolveStr eid? (fieldVal rest "EntityId") <;>
                simp [List.filter_cons, hnc]

theorem accountResult_none {fields : List (String × Json)} {aid? : Option Nat}
    {extra : List (String × Json)}
    (h : resolveU64 aid? (fieldVal fields "AccountId") = none) :
    accountResult fields aid? extra = none := by
  simp [accountResult, h]

theorem decodeAccountLoop_eq (fields : List (String × Json)) (aid? : Option Nat)
    (extra : List (String × Json))
    (hnd : (keysOf fields).Nodup)
    (hdisj : ∀ k, k ∈ keysOf extra → k ∉ keysOf fields) :
    decodeAccountLoop fields aid? extra = accountResult fields aid? extra := by
  induction fields generalizing aid? extra with
  | nil =>
    cases aid? <;>
      simp [decodeAccountLoop, accountResult, fieldVal, resolveU64]
  | cons kv rest ih =>
    obtain ⟨k, v⟩ := kv
    rw [keysOf_cons, List.nodup_cons] at hnd
    obtain ⟨hknot, hnd'⟩ := hnd
    have hdisj' : ∀ k', k' ∈ keysOf extra → k' ∉ keysOf rest := by
      intro k' hk' hmem
      exact hdisj k' hk' (by rw [keysOf_cons]; exact List.mem_cons_of_mem _ hmem)
    by_cases h1 : k = "AccountId"
    · subst h1
      have hv1' : fieldVal rest "AccountId" = none := fieldVal_of_not_mem hknot
      cases aid? with
      | some x =>
        rw [accountResult_none (by rw [fieldVal_cons_self]; rfl)]
        simp [decodeAccountLoop]
      | none =>
        cases v with
        | num n =>
          cases n with
          | uint m =>
            by_cases hm : m < 2 ^ 64
            · rw [show decodeAccountLoop
                    (("AccountId", Json.num (.uint m)) :: rest) none extra
                  = decodeAccountLoop rest (some m) extra from by
                    simp only [decodeAccountLoop, if_pos rfl]
                    rw [if_pos hm]
                    simp]
              rw [ih (some m) extra hnd' hdisj']
              unfold accountResult
              rw [fieldVal_cons_self, hv1',
                show resolveU64 (some m) none = some m from rfl,
                show resolveU64 none (some (Json.num (.uint m)))
                  = if m < 2 ^ 64 then some m else none from rfl, if_pos hm]
              simp [List.filter_cons]
            · rw [accountResult_none (by
                rw [fieldVal_cons_self,
                  show resolveU64 none (some (Json.num (.uint m)))
                    = if m < 2 ^ 64 then some m else none from rfl, if_neg hm])]
              simp only [decodeAccountLoop, if_pos rfl]
              rw [if_neg hm]
              simp
          | nint i =>
            rw [accountResult_none (by rw [fieldVal_cons_self]; rfl)]
            simp [decodeAccountLoop]
          | float =>
            rw [accountResult_none (by rw [fieldVal_cons_self]; rfl)]
            simp [decodeAccountLoop]
        | null =>
          rw [accountResult_none (by rw [fieldVal_cons_self]; rfl)]
          simp [decodeAccountLoop]
        | bool b =>
          rw [accountResult_none (by rw [fieldVal_cons_self]; rfl)]
          simp [decodeAccountLoop]
        | str s =>
          rw [accountResult_none (by rw [fieldVal_cons_self]; rfl)]
          simp [decodeAccountLoop]
        | arr xs =>
          rw [accountResult_none (by rw [fieldVal_cons_self]; rfl)]
          simp [decodeAccountLoop]
        | obj fs =>
          rw [accountResult_none (by rw [fieldVal_cons_self]; rfl)]
          simp [decodeAccountLoop]
    · have hkextra : k ∉ keysOf extra := by
        intro hmem
        exact hdisj k hmem (by rw [keysOf_cons]; exact List.mem_cons_self _ _)
      have step : decodeAccountLoop ((k, v) :: rest) aid? extra
          = decodeAccountLoop rest aid? (extra ++ [(k, v)]) := by
        simp only [decodeAccountLoop, if_neg h1]
        rw [mapInsert_of_not_mem _ hkextra]
      rw [step]
      have hdisj2 : ∀ k', k' ∈ keysOf (extra ++ [(k, v)]) → k' ∉ keysOf rest := by
        intro k' hk'
        have : keysOf (extra ++ [(k, v)]) = keysOf extra ++ [k] := by
          simp [keysOf]
        rw [this] at hk'
        rcases List.mem_append.mp hk' with h | h
        · exact hdisj' k' h
        · simp at h
          exact h ▸ hknot
      rw [ih aid? (extra ++ [(k, v)]) hnd' hdisj2]
      have e1 : fieldVal ((k, v) :: rest) "AccountId" =
          fieldVal rest "AccountId" := fieldVal_cons_ne _ _ h1
      unfold accountResult
      rw [e1]
      cases resolveU64 aid? (fieldVal rest "AccountId") <;>
        simp [List.filter_cons, h1]

theorem decodeProjectLoop_none_of_no_pid (fields : List (String × Json))
    (et? eid? : Option String) (extra : List (String × Json))
    (h : "ProjectId" ∉ keysOf fields) :
    decodeProjectLoop fields none et? eid? extra = none := by
  induction fields generalizing et? eid? extra with
  | nil => simp [decodeProjectLoop]
  | cons kv rest ih =>
    obtain ⟨k, v⟩ := kv
    have hk : ¬k = "ProjectId" := by
      intro h1
      exact h (by rw [keysOf_cons, h1]; exact List.mem_cons_self _ _)
    have h' : "ProjectId" ∉ keysOf rest := by
      intro hm
      exact h (by rw [keysOf_cons]; exact List.mem_cons_of_mem _ hm)
    by_cases h2 : k = "EntityType"
    · subst h2
      cases et? with
      | some x => simp [decodeProjectLoop, hk]
      | none => cases v <;> simp [decodeProjectLoop, hk, ih _ _ _ h']
    · by_cases h3 : k = "EntityId"
      · subst h3
        cases eid? with
        | some x => simp [decodeProjectLoop, hk, h2]
        | none => cases v <;> simp [decodeProjectLoop, hk, h2, ih _ _ _ h']
      · simp [decodeProjectLoop, hk, h2, h3, ih _ _ _ h']

theorem decodeAccountLoop_none_of_no_aid (fields : List (String × Json))
    (extra : List (String × Json))
    (h : "AccountId" ∉ keysOf fields) :
    decodeAccountLoop fields none extra = none := by
  induction fields generalizing extra with
  | nil => simp [decodeAccountLoop]
  | cons kv rest ih =>
    obtain ⟨k, v⟩ := kv
    have hk : ¬k = "AccountId" := by
      intro h1
      exact h (by rw [keysOf_cons, h1]; exact List.mem_cons_self _ _)
    have h' : "AccountId" ∉ keysOf rest := by
      intro hm
      exact h (by rw [keysOf_cons]; exact List.mem_cons_of_mem _ hm)
    simp [decodeAccountLoop, hk, ih _ h']

/-! Support lemmas about the shard reader loop. -/

theorem handleRecords_done_of_wf (recs : List Record)
    (h : recordsWf recs = true) :
    ∃ pub log, handleRecords true recs = .done pub log := by
  induction recs with
  | nil => exact ⟨[], [], rfl⟩
  | cons r rest ih =>
    rw [recordsWf, List.all_cons] at h
    obtain ⟨hr, hrest⟩ := Bool.and_eq_true_iff.mp h
    obtain ⟨d, hd⟩ := Option.isSome_iff_exists.mp hr
    obtain ⟨pub, log, hpl⟩ := ih hrest
    cases htf : Event.tryFrom d with
    | ok ev =>
      exact ⟨ev :: pub, log, by simp [handleRecords, hd, htf, hpl]⟩
    | error e =>
      exact ⟨pub, d :: log, by simp [handleRecords, hd, htf, hpl]⟩

theorem handleRecords_shape_of_wf (channelOpen : Bool) (recs : List Record)
    (h : recordsWf recs = true) :
    (∃ pub log, handleRecords channelOpen recs = .done pub log) ∨
      (∃ pub log, handleRecords channelOpen recs = .sendFailed pub log) := by
  induction recs with
  | nil => exact .inl ⟨[], [], rfl⟩
  | cons r rest ih =>
    rw [recordsWf, List.all_cons] at h
    obtain ⟨hr, hrest⟩ := Bool.and_eq_true_iff.mp h
    obtain ⟨d, hd⟩ := Option.isSome_iff_exists.mp hr
    cases htf : Event.tryFrom d with
    | ok ev =>
      cases hco : channelOpen with
      | false =>
        subst hco
        exact .inr ⟨[], [], by simp [handleRecords, hd, htf]⟩
      | true =>
        subst hco
        rcases ih hrest with ⟨pub, log, hpl⟩ | ⟨pub, log, hpl⟩
        · exact .inl ⟨ev :: pub, log, by simp [handleRecords, hd, htf, hpl]⟩
        · exact .inr ⟨ev :: pub, log, by simp [handleRecords, hd, htf, hpl]⟩
    | error e =>
      rcases ih hrest with ⟨pub, log, hpl⟩ | ⟨pub, log, hpl⟩
      · exact .inl ⟨pub, d :: log, by simp [handleRecords, hd, htf, hpl]⟩
      · exact .inr ⟨pub, d :: log, by simp [handleRecords, hd, htf, hpl]⟩

theorem runLoop_ok_of_goodScript (script : List (Except String GetRecordsOutput))
    (h : goodScript script = true) (acc : RunAcc) :
    ∃ res, runLoop true script acc = some res ∧ res.outcome = .ok := by
  induction script generalizing acc with
  | nil => simp [goodScript] at h
  | cons entry rest ih =>
    cases entry with
    | error e => simp [goodScript] at h
    | ok resp =>
      cases hrec : resp.records with
      | none => simp only [goodScript, hrec] at h; simp at h
      | some recs =>
        simp only [goodScript, hrec] at h
        obtain ⟨hwf, hnx⟩ := Bool.and_eq_true_iff.mp h
        obtain ⟨pub, log, hpl⟩ := handleRecords_done_of_wf recs hwf
        cases hni : resp.nextShardIterator with
        | none =>
          exact ⟨⟨.ok, acc.published ++ pub, acc.fetchCalls + 1, acc.delays,
              acc.loggedPayloads ++ log⟩,
            by simp [runLoop, hrec, hpl, hni, RunAcc.finish], rfl⟩
        | some it =>
          simp only [hni] at hnx
          obtain ⟨res, hres, hout⟩ := ih hnx
            ⟨acc.published ++ pub, acc.fetchCalls + 1, acc.delays + 1,
              acc.loggedPayloads ++ log⟩
          refine ⟨res, ?_, hout⟩
          simp only [runLoop, hrec, hpl, hni]
          exact hres

theorem runLoop_fetchErr_of_openPre (pre : List (Except String GetRecordsOutput))
    (h : pre.all openOkEntry = true) (e : String)
    (rest : List (Except String GetRecordsOutput)) (acc : RunAcc) :
    ∃ res, runLoop true (pre ++ .error e :: rest) acc = some res ∧
      res.outcome = .err (.fetchCall e) := by
  induction pre generalizing acc with
  | nil =>
    exact ⟨⟨.err (.fetchCall e), acc.published, acc.fetchCalls + 1, acc.delays,
        acc.loggedPayloads⟩,
      by simp [runLoop, RunAcc.finish], rfl⟩
  | cons entry pre' ih =>
    rw [List.all_cons] at h
    obtain ⟨hentry, hpre'⟩ := Bool.and_eq_true_iff.mp h
    cases entry with
    | error e' => simp [openOkEntry] at hentry
    | ok resp =>
      rw [openOkEntry] at hentry
      obtain ⟨hrecs, hnx⟩ := Bool.and_eq_true_iff.mp hentry
      cases hrec : resp.records with
      | none => simp only [hrec] at hrecs; simp at hrecs
      | some recs =>
        simp only [hrec] at hrecs
        obtain ⟨pub, log, hpl⟩ := handleRecords_done_of_wf recs hrecs
        obtain ⟨it, hit⟩ := Option.isSome_iff_exists.mp hnx
        obtain ⟨res, hres, hout⟩ := ih hpre'
          ⟨acc.published ++ pub, acc.fetchCalls + 1, acc.delays + 1,
            acc.loggedPayloads ++ log⟩
        refine ⟨res, ?_, hout⟩
        simp only [List.cons_append, runLoop, hrec, hpl, hit]
        exact hres

theorem runLoop_no_panic (script : List (Except String GetRecordsOutput))
    (h : scriptWf script = true) (channelOpen : Bool) :
    ∀ acc res, runLoop channelOpen script acc = some res →
      res.outcome ≠ .panicked := by
  induction script with
  | nil => intro acc res hres; simp [runLoop] at hres
  | cons entry rest ih =>
    rw [scriptWf, List.all_cons] at h
    obtain ⟨hentry, hrest⟩ := Bool.and_eq_true_iff.mp h
    intro acc res hres
    cases entry with
    | error e =>
      rw [runLoop] at hres
      cases hres
      simp [RunAcc.finish]
    | ok resp =>
      rw [entryWf] at hentry
      cases hrec : resp.records with
      | none => simp only [hrec] at hentry; simp at hentry
      | some recs =>
        simp only [hrec] at hentry
        rcases handleRecords_shape_of_wf channelOpen recs hentry with
          ⟨pub, log, hpl⟩ | ⟨pub, log, hpl⟩
        · cases hni : resp.nextShardIterator with
          | none =>
            simp only [runLoop, hrec, hpl, hni] at hres
            cases hres
            simp [RunAcc.finish]
          | some it =>
            simp only [runLoop, hrec, hpl, hni] at hres
            exact ih hrest _ _ hres
        · simp only [runLoop, hrec, hpl] at hres
          cases hres
          simp [RunAcc.finish]

/-! Claim theorems. -/

/-- Claim C1, counterexample: the payload object with keys ProjectId
(the number 5, a project schema mismatch) and AccountId (the number 7)
does not fail with a project-schema error — the untagged decoder falls
back to the account variant and succeeds, with the ProjectId key landing
in the extra map. This refutes the claim that decode never falls back to
AccountEvent when the project schema does not match. -/
theorem C1_counterexample :
    Event.tryFrom payloadPidNumAid
      = .ok (.account ⟨7, [("ProjectId", .num (.uint 5))]⟩) := by rfl

/-- Claim C1, amended: for every payload that parses to a JSON object
containing the key ProjectId, when the project schema does not match,
decode falls back to attempting the account schema on the same object:
it succeeds as an AccountEvent when that schema matches, and otherwise
fails with the one generic no-variant-matched error. -/
theorem C1_fallback_to_account (bs : List Nat) (fields : List (String × Json))
    (hp : parseJson bs = .ok (.obj fields))
    (_hkey : "ProjectId" ∈ keysOf fields)
    (hfail : decodeProject (.obj fields) = none) :
    Event.tryFrom bs =
      match decodeAccount (.obj fields) with
      | some a => .ok (.account a)
      | none => .error .noVariantMatched := by
  simp only [Event.tryFrom, hp, decodeValue, hfail]
  cases decodeAccount (.obj fields) <;> rfl

/-- Claim C1, witness: the amended theorem applied to the
counterexample payload. -/
theorem C1_fallback_to_account_witness :
    Event.tryFrom payloadPidNumAid =
      match decodeAccount (.obj [("ProjectId", .num (.uint 5)),
        ("AccountId", .num (.uint 7))]) with
      | some a => .ok (.account a)
      | none => .error .noVariantMatched :=
  C1_fallback_to_account payloadPidNumAid
    [("ProjectId", .num (.uint 5)), ("AccountId", .num (.uint 7))]
    (by rfl) (by simp [keysOf]) (by rfl)

/-- Claim C2: every payload parsing to a JSON object with distinct keys
that maps ProjectId to a UUID string, EntityType to a string, and
EntityId to a string decodes to a ProjectEvent carrying exactly those
three values, with the extra map holding precisely the remaining keys
with their values, in source order, whatever the key order is. -/
theorem C2_project_decode (bs : List Nat) (fields : List (String × Json))
    (ps : String) (u : Nat) (t i : String)
    (hp : parseJson bs = .ok (.obj fields))
    (hnd : (keysOf fields).Nodup)
    (h1 : fieldVal fields "ProjectId" = some (.str ps))
    (hu : parseUuid ps = some u)
    (h2 : fieldVal fields "EntityType" = some (.str t))
    (h3 : fieldVal fields "EntityId" = some (.str i)) :
    Event.tryFrom bs = .ok (.project
      ⟨u, t, i, fields.filter (fun kv => !projectConsumed kv.1)⟩) := by
  have hproj : decodeProject (.obj fields)
      = some ⟨u, t, i, fields.filter (fun kv => !projectConsumed kv.1)⟩ := by
    simp only [decodeProject]
    rw [decodeProjectLoop_eq fields none none none [] hnd (by simp [keysOf])]
    unfold projectResult
    rw [h1, h2, h3,
      show resolveUuid none (some (Json.str ps)) = parseUuid ps from rfl, hu,
      show resolveStr none (some (Json.str t)) = some t from rfl,
      show resolveStr none (some (Json.str i)) = some i from rfl]
    simp
  simp only [Event.tryFrom, hp, decodeValue, hproj]

/-- Claim C2, witness: the payload with a hyphenated ProjectId UUID,
EntityType "a", EntityId "b" and the extra key AccountId. -/
theorem C2_project_decode_witness :
    Event.tryFrom payloadFullProjectWithAid = .ok (.project
      ⟨sampleUuidVal, "a", "b",
        ([("ProjectId",
            Json.str "123e4567-e89b-12d3-a456-426614174000"),
          ("EntityType", Json.str "a"), ("EntityId", Json.str "b"),
          ("AccountId", Json.num (.uint 7))]).filter
          (fun kv => !projectConsumed kv.1)⟩) :=
  C2_project_decode payloadFullProjectWithAid
    [("ProjectId", Json.str "123e4567-e89b-12d3-a456-426614174000"),
     ("EntityType", Json.str "a"), ("EntityId", Json.str "b"),
     ("AccountId", Json.num (.uint 7))]
    "123e4567-e89b-12d3-a456-426614174000" sampleUuidVal "a" "b"
    (by rfl) (by decide) (by rfl) (by rfl) (by rfl) (by rfl)

/-- Claim C3, counterexample: a successfully decoded ProjectEvent whose
extra map contains the key AccountId — the payload carried a full
project schema plus an AccountId key, which the matched project variant
does not consume. This refutes the claim that extra never contains the
key AccountId. -/
theorem C3_counterexample :
    Event.tryFrom payloadFullProjectWithAid = .ok (.project
      ⟨sampleUuidVal, "a", "b", [("AccountId", Json.num (.uint 7))]⟩) ∧
    "AccountId" ∈ keysOf [("AccountId", Json.num (.uint 7))] :=
  ⟨by rfl, by decide⟩

/-- Claim C3, amended: for every decoded Event from an object with
distinct keys, the extra map holds exactly the keys not consumed by the
matched variant — ProjectId, EntityType and EntityId for a ProjectEvent,
AccountId for an AccountEvent — verbatim and in the source order of the
payload. The discriminating key of the other variant is not excluded:
a ProjectEvent can carry AccountId in extra, and an AccountEvent
reached through the untagged fallback can carry ProjectId in extra. -/
theorem C3_extra_exact (bs : List Nat) (fields : List (String × Json)) (ev : Event)
    (hp : parseJson bs = .ok (.obj fields))
    (hnd : (keysOf fields).Nodup)
    (hok : Event.tryFrom bs = .ok ev) :
    (∀ pe, ev = .project pe →
       pe.event_data = fields.filter (fun kv => !projectConsumed kv.1)) ∧
    (∀ ae, ev = .account ae →
       ae.event_data = fields.filter (fun kv => !(kv.1 = "AccountId"))) := by
  simp only [Event.tryFrom, hp, decodeValue] at hok
  cases hproj : decodeProject (.obj fields) with
  | some p =>
    rw [hproj] at hok
    simp only [Except.ok.injEq] at hok
    have hpr : decodeProject (.obj fields)
        = projectResult fields none none none [] := by
      simp only [decodeProject]
      exact decodeProjectLoop_eq fields none none none [] hnd (by simp [keysOf])
    rw [hpr] at hproj
    constructor
    · intro pe hev
      rw [← hok] at hev
      cases hev
      unfold projectResult at hproj
      cases hru : resolveUuid none (fieldVal fields "ProjectId") <;>
        rw [hru] at hproj
      · exact absurd hproj (by simp)
      · cases hrt : resolveStr none (fieldVal fields "EntityType") <;>
          rw [hrt] at hproj
        · exact absurd hproj (by simp)
        · cases hri : resolveStr none (fieldVal fields "EntityId") <;>
            rw [hri] at hproj
          · exact absurd hproj (by simp)
          · simp only [Option.some.injEq] at hproj
            rw [← hproj]
            simp
    · intro ae hev
      rw [← hok] at hev
      cases hev
  | none =>
    rw [hproj] at hok
    cases hacc : decodeAccount (.obj fields) with
    | some a =>
      rw [hacc] at hok
      simp only [Except.ok.injEq] at hok
      have har : decodeAccount (.obj fields)
          = accountResult fields none [] := by
        simp only [decodeAccount]
        exact decodeAccountLoop_eq fields none [] hnd (by simp [keysOf])
      rw [har] at hacc
      constructor
      · intro pe hev
        rw [← hok] at hev
        cases hev
      · intro ae hev
        rw [← hok] at hev
        cases hev
        unfold accountResult at hacc
        cases hra : resolveU64 none (fieldVal fields "AccountId") <;>
          rw [hra] at hacc
        · exact absurd hacc (by simp)
        · simp only [Option.some.injEq] at hacc
          rw [← hacc]
          simp
    | none =>
      rw [hacc] at hok
      exact absurd hok (by simp)

/-- Claim C3, witness: the amended theorem applied to the project
payload carrying an extra AccountId key. -/
theorem C3_extra_exact_witness :
    (∀ pe, Event.project ⟨sampleUuidVal, "a", "b",
        [("AccountId", Json.num (.uint 7))]⟩ = .project pe →
      pe.event_data = ([("ProjectId",
          Json.str "123e4567-e89b-12d3-a456-426614174000"),
        ("EntityType", Json.str "a"), ("EntityId", Json.str "b"),
        ("AccountId", Json.num (.uint 7))]).filter
        (fun kv => !projectConsumed kv.1)) ∧
    (∀ ae, Event.project ⟨sampleUuidVal, "a", "b",
        [("AccountId", Json.num (.uint 7))]⟩ = .account ae →
      ae.event_data = ([("ProjectId",
          Json.str "123e4567-e89b-12d3-a456-426614174000"),
        ("EntityType", Json.str "a"), ("EntityId", Json.str "b"),
        ("AccountId", Json.num (.uint 7))]).filter
        (fun kv => !(kv.1 = "AccountId"))) :=
  C3_extra_exact payloadFullProjectWithAid
    [("ProjectId", Json.str "123e4567-e89b-12d3-a456-426614174000"),
     ("EntityType", Json.str "a"), ("EntityId", Json.str "b"),
     ("AccountId", Json.num (.uint 7))]
    (.project ⟨sampleUuidVal, "a", "b", [("AccountId", Json.num (.uint 7))]⟩)
    (by rfl) (by decide) (by rfl)

/-- Claim C4: a shard reader fed a batch of three decodable records with
a next cursor and then an empty batch without one publishes exactly the
three decoded events in fetch order, issues exactly two fetch calls with
one pacing delay between them, logs nothing, and returns success. -/
theorem C4_three_records_then_close (d1 d2 d3 : List Nat) (e1 e2 e3 : Event)
    (s1 s2 s3 : Option String) (init it2 : String)
    (h1 : Event.tryFrom d1 = .ok e1) (h2 : Event.tryFrom d2 = .ok e2)
    (h3 : Event.tryFrom d3 = .ok e3) :
    KinesisShardReader.runUntilShardClosed
      ⟨.ok init,
       [.ok ⟨some [⟨s1, some d1⟩, ⟨s2, some d2⟩, ⟨s3, some d3⟩], some it2⟩,
        .ok ⟨some [], none⟩],
       true⟩
      = some ⟨.ok, [e1, e2, e3], 2, 1, []⟩ := by
  simp [KinesisShardReader.runUntilShardClosed, runLoop, handleRecords,
    h1, h2, h3, RunAcc.finish]

/-- Claim C4, witness: three concrete account payloads. -/
theorem C4_three_records_then_close_witness :
    KinesisShardReader.runUntilShardClosed
      ⟨.ok "it1",
       [.ok ⟨some [⟨some "sq1", some payloadAid1⟩, ⟨some "sq2", some payloadAid2K⟩,
          ⟨some "sq3", some payloadAid1⟩], some "it2"⟩,
        .ok ⟨some [], none⟩],
       true⟩
      = some ⟨.ok, [.account ⟨1, []⟩, .account ⟨2, [("K", .bool true)]⟩,
          .account ⟨1, []⟩], 2, 1, []⟩ :=
  C4_three_records_then_close payloadAid1 payloadAid2K payloadAid1
    (.account ⟨1, []⟩) (.account ⟨2, [("K", .bool true)]⟩) (.account ⟨1, []⟩)
    (some "sq1") (some "sq2") (some "sq3") "it1" "it2"
    (by rfl) (by rfl) (by rfl)

/-- Claim C5: a record whose payload fails to decode is logged with its
raw payload and skipped — a batch of a valid, a malformed and a valid
record yields exactly the two decoded events in order, one logged raw
payload, a continuing loop (the pacing delay is taken and the next fetch
issued), and no error. -/
theorem C5_malformed_record_skipped (d1 dm d2 : List Nat) (e1 e2 : Event)
    (errm : EventDeserializeError) (s1 sm s2 : Option String) (init it2 : String)
    (h1 : Event.tryFrom d1 = .ok e1)
    (hm : Event.tryFrom dm = .error errm)
    (h2 : Event.tryFrom d2 = .ok e2) :
    KinesisShardReader.runUntilShardClosed
      ⟨.ok init,
       [.ok ⟨some [⟨s1, some d1⟩, ⟨sm, some dm⟩, ⟨s2, some d2⟩], some it2⟩,
        .ok ⟨some [], none⟩],
       true⟩
      = some ⟨.ok, [e1, e2], 2, 1, [dm]⟩ := by
  simp [KinesisShardReader.runUntilShardClosed, runLoop, handleRecords,
    h1, hm, h2, RunAcc.finish]

/-- Claim C5, witness: a valid account payload, the empty-object payload
(which fails to decode), and another valid account payload. -/
theorem C5_malformed_record_skipped_witness :
    KinesisShardReader.runUntilShardClosed
      ⟨.ok "it1",
       [.ok ⟨some [⟨some "sq1", some payloadAid1⟩,
          ⟨some "sq2", some payloadEmptyObj⟩,
          ⟨some "sq3", some payloadAid2K⟩], some "it2"⟩,
        .ok ⟨some [], none⟩],
       true⟩
      = some ⟨.ok, [.account ⟨1, []⟩, .account ⟨2, [("K", .bool true)]⟩],
          2, 1, [payloadEmptyObj]⟩ :=
  C5_malformed_record_skipped payloadAid1 payloadEmptyObj payloadAid2K
    (.account ⟨1, []⟩) (.account ⟨2, [("K", .bool true)]⟩)
    .noVariantMatched (some "sq1") (some "sq2") (some "sq3") "it1" "it2"
    (by rfl) (by rfl) (by rfl)

/-- Claim C6: the reader fails exactly on the three fatal conditions.
First, an initial-cursor failure terminates immediately with the wrapped
fatal error, zero events published, zero fetch calls, and no retry.
Second, when the initial cursor succeeds, the channel is open and the
script is a normal closing run whose records all carry payloads — with
no constraint on whether the payloads decode — the reader returns
success, so decode failures never cause an error. Third, a fetch-call
service error after any number of passed-through responses terminates
with that propagated error. Fourth, with the consumer gone a decodable
record makes the send fail and terminates the reader with the
channel-send error. -/
theorem C6_failure_semantics :
    (∀ env e, env.initialIterator = .error e →
        KinesisShardReader.runUntilShardClosed env
          = some ⟨.err (.initialCursor e), [], 0, 0, []⟩) ∧
    (∀ env a, env.channelOpen = true → env.initialIterator = .ok a →
        goodScript env.script = true →
        Option.map RunResult.outcome
          (KinesisShardReader.runUntilShardClosed env) = some .ok) ∧
    (∀ env a pre e rest, env.channelOpen = true →
        env.initialIterator = .ok a →
        env.script = pre ++ .error e :: rest → pre.all openOkEntry = true →
        Option.map RunResult.outcome
          (KinesisShardReader.runUntilShardClosed env)
          = some (.err (.fetchCall e))) ∧
    (∀ env a s d ev recs nx rest, env.channelOpen = false →
        env.initialIterator = .ok a →
        env.script = .ok ⟨some (⟨s, some d⟩ :: recs), nx⟩ :: rest →
        Event.tryFrom d = .ok ev →
        Option.map RunResult.outcome
          (KinesisShardReader.runUntilShardClosed env)
          = some (.err .channelSend)) := by
  refine ⟨?_, ?_, ?_, ?_⟩
  · intro env e he
    simp [KinesisShardReader.runUntilShardClosed, he]
  · intro env a hco hinit hgood
    obtain ⟨res, hres, hout⟩ :=
      runLoop_ok_of_goodScript env.script hgood ⟨[], 0, 0, []⟩
    simp only [KinesisShardReader.runUntilShardClosed, hinit, hco, hres,
      Option.map_some]
    simp [hout]
  · intro env a pre e rest hco hinit hscript hpre
    obtain ⟨res, hres, hout⟩ :=
      runLoop_fetchErr_of_openPre pre hpre e rest ⟨[], 0, 0, []⟩
    simp only [KinesisShardReader.runUntilShardClosed, hinit, hco, hscript,
      hres, Option.map_some]
    simp [hout]
  · intro env a s d ev recs nx rest hco hinit hscript htf
    simp only [KinesisShardReader.runUntilShardClosed, hinit, hco, hscript]
    simp [runLoop, handleRecords, htf, RunAcc.finish]

/-- Claim C6, witness: the four conjuncts applied to concrete
environments — a failing initial cursor, a one-batch closing script with
a malformed record, a first-fetch service error, and a closed channel
with one decodable record. -/
theorem C6_failure_semantics_witness :
    KinesisShardReader.runUntilShardClosed ⟨.error "boom", [], true⟩
      = some ⟨.err (.initialCursor "boom"), [], 0, 0, []⟩ ∧
    Option.map RunResult.outcome (KinesisShardReader.runUntilShardClosed
      ⟨.ok "it1", [.ok ⟨some [⟨some "sq", some payloadEmptyObj⟩], none⟩], true⟩)
      = some .ok ∧
    Option.map RunResult.outcome (KinesisShardReader.runUntilShardClosed
      ⟨.ok "it1", [.error "net down"], true⟩)
      = some (.err (.fetchCall "net down")) ∧
    Option.map RunResult.outcome (KinesisShardReader.runUntilShardClosed
      ⟨.ok "it1", [.ok ⟨some [⟨some "sq", some payloadAid1⟩], none⟩], false⟩)
      = some (.err .channelSend) :=
  ⟨C6_failure_semantics.1 ⟨.error "boom", [], true⟩ "boom" rfl,
   C6_failure_semantics.2.1
     ⟨.ok "it1", [.ok ⟨some [⟨some "sq", some payloadEmptyObj⟩], none⟩], true⟩
     "it1" rfl rfl (by rfl),
   C6_failure_semantics.2.2.1 ⟨.ok "it1", [.error "net down"], true⟩
     "it1" [] "net down" [] rfl rfl rfl rfl,
   C6_failure_semantics.2.2.2
     ⟨.ok "it1", [.ok ⟨some [⟨some "sq", some payloadAid1⟩], none⟩], false⟩
     "it1" (some "sq") payloadAid1 (.account ⟨1, []⟩) [] none [] rfl rfl rfl
     (by rfl)⟩

/-- Claim C7: decode is a pure total function on byte sequences — for
every input it deterministically returns a value or one of the two
errors, never a panic (the model has no panic outcome and the source
`try_from` performs no unwrap), and every input whose parse fails maps
to the wrapped parse (malformed payload) error. -/
theorem C7_decode_total (bs : List Nat) :
    (∀ e, parseJson bs = .error e → Event.tryFrom bs = .error .malformedJson) ∧
    Event.tryFrom bs = Event.tryFrom bs ∧
    ((∃ ev, Event.tryFrom bs = .ok ev) ∨
      Event.tryFrom bs = .error .malformedJson ∨
      Event.tryFrom bs = .error .noVariantMatched) := by
  refine ⟨?_, rfl, ?_⟩
  · intro e he
    simp [Event.tryFrom, he]
  · cases htf : Event.tryFrom bs with
    | ok ev => exact .inl ⟨ev, rfl⟩
    | error err =>
      cases err with
      | malformedJson => exact .inr (.inl rfl)
      | noVariantMatched => exact .inr (.inr rfl)

/-- Claim C7, witness: the parse-failure clause at the empty input, a
truncated input, and a non-UTF-8 input. -/
theorem C7_decode_total_witness :
    Event.tryFrom [] = .error .malformedJson ∧
    Event.tryFrom payloadTruncated = .error .malformedJson ∧
    Event.tryFrom [255] = .error .malformedJson :=
  ⟨(C7_decode_total []).1 () (by rfl),
   (C7_decode_total payloadTruncated).1 () (by rfl),
   (C7_decode_total [255]).1 () (by rfl)⟩

/-- Claim C8, counterexample: the empty object (no discriminator key at
all) and the object mapping ProjectId to a number (a per-variant schema
mismatch) fail with the very same error value — the single untagged
no-variant-matched error — so there is no distinct missing-discriminator
error distinguishable from per-variant schema mismatches. -/
theorem C8_counterexample :
    Event.tryFrom payloadEmptyObj = .error .noVariantMatched ∧
    Event.tryFrom payloadPidNumOnly = .error .noVariantMatched :=
  ⟨by rfl, by rfl⟩

/-- Claim C8, amended: a payload parsing to a JSON object containing
neither ProjectId nor AccountId fails with the generic
no-variant-matched deserialize error — distinguishable from malformed
input (a parse error) but identical to the error any per-variant schema
mismatch produces. -/
theorem C8_no_discriminator (bs : List Nat) (fields : List (String × Json))
    (hp : parseJson bs = .ok (.obj fields))
    (h1 : "ProjectId" ∉ keysOf fields)
    (h2 : "AccountId" ∉ keysOf fields) :
    Event.tryFrom bs = .error .noVariantMatched := by
  have hproj : decodeProject (.obj fields) = none := by
    simp only [decodeProject]
    exact decodeProjectLoop_none_of_no_pid fields none none [] h1
  have hacc : decodeAccount (.obj fields) = none := by
    simp only [decodeAccount]
    exact decodeAccountLoop_none_of_no_aid fields [] h2
  simp [Event.tryFrom, hp, decodeValue, hproj, hacc]

/-- Claim C8, witness: the object with the single key K. -/
theorem C8_no_discriminator_witness :
    Event.tryFrom [123, 34, 75, 34, 58, 116, 114, 117, 101, 125]
      = .error .noVariantMatched :=
  C8_no_discriminator [123, 34, 75, 34, 58, 116, 114, 117, 101, 125]
    [("K", .bool true)] (by rfl) (by decide) (by decide)

/-- Claim C9, counterexample: a successful service response whose
stream description is present but omits the shard list makes
describe_stream succeed, returning the description unchanged — it does
not return an error — and the caller of `src/main.rs` then panics on the
missing shard list. This refutes the claim that describe_stream errors
whenever the response omits the shard list. -/
theorem C9_counterexample :
    KinesisWrapper.describeStream (.ok ⟨some ⟨none⟩⟩) = .ok ⟨none⟩ ∧
    mainFirstShardId ⟨none⟩ = .panicked "at least one shard" :=
  ⟨rfl, rfl⟩

/-- Claim C9, amended: describe_stream fails exactly when the service
call fails (propagating that error) or when the response omits the
stream description; otherwise it returns the description as-is without
inspecting its shard list, and a description without a shard list makes
the caller's shard selection panic rather than error. -/
theorem C9_describe_stream (resp : Except String DescribeStreamOutput) :
    (∀ e, resp = .error e →
       KinesisWrapper.describeStream resp = .error e) ∧
    (∀ o, resp = .ok o → o.streamDescription = none →
       KinesisWrapper.describeStream resp = .error "No stream description") ∧
    (∀ o d, resp = .ok o → o.streamDescription = some d →
       KinesisWrapper.describeStream resp = .ok d) ∧
    (∀ d : StreamDescription, d.shards = none →
       mainFirstShardId d = .panicked "at least one shard") := by
  refine ⟨?_, ?_, ?_, ?_⟩
  · intro e he
    simp [KinesisWrapper.describeStream, he]
  · intro o ho hsd
    simp [KinesisWrapper.describeStream, ho, hsd]
  · intro o d ho hsd
    simp [KinesisWrapper.describeStream, ho, hsd]
  · intro d hsh
    simp [mainFirstShardId, hsh]

/-- Claim C9, witness: the amended theorem applied to a failing call, a
response without a description, a response with a description, and a
description without a shard list. -/
theorem C9_describe_stream_witness :
    KinesisWrapper.describeStream (.error "net down") = .error "net down" ∧
    KinesisWrapper.describeStream (.ok ⟨none⟩)
      = .error "No stream description" ∧
    KinesisWrapper.describeStream (.ok ⟨some ⟨some [⟨some "s1"⟩]⟩⟩)
      = .ok ⟨some [⟨some "s1"⟩]⟩ ∧
    mainFirstShardId ⟨none⟩ = .panicked "at least one shard" :=
  ⟨(C9_describe_stream (.error "net down")).1 "net down" rfl,
   (C9_describe_stream (.ok ⟨none⟩)).2.1 ⟨none⟩ rfl rfl,
   (C9_describe_stream (.ok ⟨some ⟨some [⟨some "s1"⟩]⟩⟩)).2.2.1
     ⟨some ⟨some [⟨some "s1"⟩]⟩⟩ ⟨some [⟨some "s1"⟩]⟩ rfl rfl,
   (C9_describe_stream (.ok ⟨none⟩)).2.2.2 ⟨none⟩ rfl⟩

/-- Claim C10: a successful fetch response without a record list, or a
record without a data payload, makes the reader panic (the model's
panicked outcome, from `unwrap` on `None`) instead of returning an
error; and under the precondition that every successful response carries
a record list whose records all have payloads, a completed run never
panics. -/
theorem C10_unwrap_panics :
    (∀ env a nx rest, env.initialIterator = .ok a →
        env.script = .ok ⟨none, nx⟩ :: rest →
        Option.map RunResult.outcome
          (KinesisShardReader.runUntilShardClosed env) = some .panicked) ∧
    (∀ env a s recs nx rest, env.initialIterator = .ok a →
        env.script = .ok ⟨some (⟨s, none⟩ :: recs), nx⟩ :: rest →
        Option.map RunResult.outcome
          (KinesisShardReader.runUntilShardClosed env) = some .panicked) ∧
    (∀ env res, scriptWf env.script = true →
        KinesisShardReader.runUntilShardClosed env = some res →
        res.outcome ≠ .panicked) := by
  refine ⟨?_, ?_, ?_⟩
  · intro env a nx rest hinit hscript
    simp only [KinesisShardReader.runUntilShardClosed, hinit, hscript]
    simp [runLoop, RunAcc.finish]
  · intro env a s recs nx rest hinit hscript
    simp only [KinesisShardReader.runUntilShardClosed, hinit, hscript]
    simp [runLoop, handleRecords, RunAcc.finish]
  · intro env res hwf hrun
    cases hinit : env.initialIterator with
    | error e =>
      simp only [KinesisShardReader.runUntilShardClosed, hinit] at hrun
      cases hrun
      simp
    | ok a =>
      simp only [KinesisShardReader.runUntilShardClosed, hinit] at hrun
      exact runLoop_no_panic env.script hwf env.channelOpen _ _ hrun

/-- Claim C10, witness: a response without a record list, a record
without a payload, and a wellformed closing script. -/
theorem C10_unwrap_panics_witness :
    Option.map RunResult.outcome (KinesisShardReader.runUntilShardClosed
      ⟨.ok "it1", [.ok ⟨none, none⟩], true⟩) = some .panicked ∧
    Option.map RunResult.outcome (KinesisShardReader.runUntilShardClosed
      ⟨.ok "it1", [.ok ⟨some [⟨some "sq", none⟩], none⟩], true⟩)
      = some .panicked ∧
    (⟨.ok, [.account ⟨1, []⟩], 1, 0, []⟩ : RunResult).outcome ≠ .panicked :=
  ⟨C10_unwrap_panics.1 ⟨.ok "it1", [.ok ⟨none, none⟩], true⟩ "it1" none []
     rfl rfl,
   C10_unwrap_panics.2.1
     ⟨.ok "it1", [.ok ⟨some [⟨some "sq", none⟩], none⟩], true⟩ "it1"
     (some "sq") [] none [] rfl rfl,
   C10_unwrap_panics.2.2
     ⟨.ok "it1", [.ok ⟨some [⟨some "sq", some payloadAid1⟩], none⟩], true⟩
     ⟨.ok, [.account ⟨1, []⟩], 1, 0, []⟩ (by rfl) (by rfl)⟩

end AwsSdkDemo
